import Mathlib

/-!
Shallow embedding of `swiftringtool.py` (pombredanne/swift-ring-tool).

The ring is a pickled dict in the source; we model the fields the tool
touches as a structure.  Python exceptions are modelled by an error type:
the transforms mutate the ring dict in place, so an error carries the state
of the input object at the moment the exception is raised
(`Except (PyErr × Ring) Ring`).  Device indices live in `array('H')`
buffers in the source, so they are already below 2^16 and copying them
cannot overflow; we model them as `Nat`.
-/

set_option autoImplicit false

namespace SwiftRingTool

/-- Python exception kinds raised (or named by the spec) around this code.
`typeError` is what iterating `None` raises; `invalidState` is the error
class the spec names for doubling an unassigned ring; `valueError` is
`list.index` on a missing element; `indexError` is out-of-range list
assignment; `unpicklingError` stands for a failure recovering object
metadata in `get_acc_cont_obj` (e.g. `pickle.loads` on corrupt data). -/
inductive PyErr where
  | typeError
  | invalidState
  | valueError
  | indexError
  | unpicklingError
  deriving DecidableEq, Repr

/-- A device record (`ring['devs'][i]` when present): only `id` and
`parts` matter to the transforms; other dict keys are untouched. -/
structure Dev where
  id : Nat
  parts : Nat
  deriving DecidableEq, Repr

/-- The ring dict as loaded from the pickle: the fields read or written by
`ring_shift_power` and `ring_reset_partitions`.  `none` models Python
`None` (for the whole `devs` list, for a deleted device slot, and for the
assignment/bookkeeping fields). -/
structure Ring where
  part_power : Nat
  parts : Nat
  replica2part2dev : Option (List (List Nat))
  devs : Option (List (Option Dev))
  last_part_moves : Option (List Nat)
  last_part_moves_epoch : Option Nat
  devs_changed : Bool
  version : Nat
  deriving DecidableEq, Repr

/-- The per-replica doubling loop of `ring_shift_power` (lines 48-52):
each entry is appended twice, in order. -/
def dbl {α : Type} : List α → List α
  | [] => []
  | d :: rest => d :: d :: dbl rest

/-- `ring_shift_power` (lines 35-68).  The source mutates `ring` step by
step: first the assignment is replaced by its doubled form (line 53), then
each present device's `parts` is doubled (lines 55-57), then
`_last_part_moves` is doubled (lines 59-63), then `part_power` and `parts`
are bumped (lines 65-66).  A `None` at any of the three iterated fields
raises `TypeError` at that point, with the mutations already made left in
place. -/
def ring_shift_power (ring : Ring) : Except (PyErr × Ring) Ring :=
  match ring.replica2part2dev with
  | none => .error (.typeError, ring)
  | some r2p2d =>
    let ring1 := { ring with replica2part2dev := some (r2p2d.map dbl) }
    match ring1.devs with
    | none => .error (.typeError, ring1)
    | some devs =>
      let ring2 := { ring1 with
        devs := some (devs.map (Option.map fun (d : Dev) => { d with parts := d.parts * 2 })) }
      match ring2.last_part_moves with
      | none => .error (.typeError, ring2)
      | some lpm =>
        let ring3 := { ring2 with last_part_moves := some (dbl lpm) }
        .ok { ring3 with part_power := ring3.part_power + 1, parts := ring3.parts * 2 }

/-- `ring_reset_partitions` (lines 71-86): zero every present device's
`parts`, then unset the assignment and bookkeeping fields, flag
`devs_changed` and reset `version` to 1.  Iterating a `None` `devs` raises
`TypeError` before any mutation. -/
def ring_reset_partitions (ring : Ring) : Except (PyErr × Ring) Ring :=
  match ring.devs with
  | none => .error (.typeError, ring)
  | some devs =>
    let ring1 := { ring with devs := some (devs.map (Option.map fun (d : Dev) => { d with parts := 0 })) }
    .ok { ring1 with
      replica2part2dev := none
      last_part_moves := none
      last_part_moves_epoch := none
      devs_changed := true
      version := 1 }

lemma dbl_length {α : Type} (l : List α) : (dbl l).length = 2 * l.length := by
  induction l with
  | nil => rfl
  | cons d rest ih => simp [dbl, ih]; omega

lemma dbl_getElem {α : Type} :
    ∀ (l : List α) (p : Nat) (x : α), l[p]? = some x →
      (dbl l)[2 * p]? = some x ∧ (dbl l)[2 * p + 1]? = some x := by
  intro l
  induction l with
  | nil => intro p x h; simp at h
  | cons y ys ih =>
    intro p x h
    cases p with
    | zero => simp at h; simp [dbl, h]
    | succ p =>
      simp only [List.getElem?_cons_succ] at h
      have h2 : 2 * (p + 1) = 2 * p + 1 + 1 := by omega
      rw [h2]
      simp only [dbl, List.getElem?_cons_succ]
      exact ⟨(ih p x h).1, (ih p x h).2⟩

/-- On success, `ring_shift_power` returns exactly this record. -/
lemma ring_shift_power_eq (r : Ring) (a : List (List Nat)) (ds : List (Option Dev))
    (lpm : List Nat) (ha : r.replica2part2dev = some a) (hd : r.devs = some ds)
    (hl : r.last_part_moves = some lpm) :
    ring_shift_power r = .ok { r with
      replica2part2dev := some (a.map dbl)
      devs := some (ds.map (Option.map fun (d : Dev) => { d with parts := d.parts * 2 }))
      last_part_moves := some (dbl lpm)
      part_power := r.part_power + 1
      parts := r.parts * 2 } := by
  simp [ring_shift_power, ha, hd, hl]

/-- On a non-nil device list, `ring_reset_partitions` returns exactly this record. -/
lemma ring_reset_partitions_eq (r : Ring) (ds : List (Option Dev)) (hd : r.devs = some ds) :
    ring_reset_partitions r = .ok { r with
      devs := some (ds.map (Option.map fun (d : Dev) => { d with parts := 0 }))
      replica2part2dev := none
      last_part_moves := none
      last_part_moves_epoch := none
      devs_changed := true
      version := 1 } := by
  simp [ring_reset_partitions, hd]

/-- A concrete ring with assignment set: 1 replica over 2 partitions,
devices 0 and 3 present, slot 1 deleted. -/
def rW : Ring :=
  ⟨1, 2, some [[0, 3]], some [some ⟨0, 2⟩, none, some ⟨3, 2⟩], some [4, 6], some 10, false, 7⟩

/-- A concrete ring whose `_replica2part2dev` is `None`. -/
def rC4 : Ring := ⟨3, 8, none, some [some ⟨0, 4⟩], some [0], some 0, false, 5⟩

/-- C1: with the assignment (and the other iterated fields) set,
`ring_shift_power` doubles the partition count, bumps `part_power` by one,
stores the old device of partition `p` at both children `2p` and `2p+1` of
every replica, and doubles `_last_part_moves` with each entry duplicated
adjacent to itself. -/
theorem shift_power_doubles (r : Ring) (a : List (List Nat)) (ds : List (Option Dev))
    (lpm : List Nat) (ha : r.replica2part2dev = some a) (hd : r.devs = some ds)
    (hl : r.last_part_moves = some lpm) :
    ∃ out, ring_shift_power r = .ok out ∧
      out.parts = 2 * r.parts ∧
      out.part_power = r.part_power + 1 ∧
      out.replica2part2dev = some (a.map dbl) ∧
      (∀ (ri p : Nat) (repl : List Nat) (d : Nat), a[ri]? = some repl → repl[p]? = some d →
        (a.map dbl)[ri]? = some (dbl repl) ∧
        (dbl repl)[2 * p]? = some d ∧ (dbl repl)[2 * p + 1]? = some d) ∧
      out.last_part_moves = some (dbl lpm) ∧
      (dbl lpm).length = 2 * lpm.length ∧
      (∀ (p x : Nat), lpm[p]? = some x →
        (dbl lpm)[2 * p]? = some x ∧ (dbl lpm)[2 * p + 1]? = some x) := by
  refine ⟨_, ring_shift_power_eq r a ds lpm ha hd hl, by simp [Nat.mul_comm], by simp,
    by simp, ?_, by simp, dbl_length lpm, ?_⟩
  · intro ri p repl d hri hp
    exact ⟨by simp [List.getElem?_map, hri], (dbl_getElem repl p d hp).1,
      (dbl_getElem repl p d hp).2⟩
  · intro p x hp
    exact dbl_getElem lpm p x hp

/-- C1 witness: the doubling theorem instantiated on `rW`. -/
theorem shift_power_doubles_w :
    ∃ out, ring_shift_power rW = .ok out ∧
      out.parts = 2 * rW.parts ∧
      out.part_power = rW.part_power + 1 ∧
      out.replica2part2dev = some ([[0, 3]].map dbl) ∧
      (∀ (ri p : Nat) (repl : List Nat) (d : Nat), ([[0, 3]] : List (List Nat))[ri]? = some repl → repl[p]? = some d →
        (([[0, 3]] : List (List Nat)).map dbl)[ri]? = some (dbl repl) ∧
        (dbl repl)[2 * p]? = some d ∧ (dbl repl)[2 * p + 1]? = some d) ∧
      out.last_part_moves = some (dbl [4, 6]) ∧
      (dbl [4, 6]).length = 2 * ([4, 6] : List Nat).length ∧
      (∀ (p x : Nat), ([4, 6] : List Nat)[p]? = some x →
        (dbl [4, 6])[2 * p]? = some x ∧ (dbl [4, 6])[2 * p + 1]? = some x) :=
  shift_power_doubles rW [[0, 3]] [some ⟨0, 2⟩, none, some ⟨3, 2⟩] [4, 6] rfl rfl rfl

/-- C3: on a non-nil device list, `ring_reset_partitions` unsets the
assignment and bookkeeping fields, flags `devs_changed`, resets `version`
to 1, and zeroes every present device's `parts`. -/
theorem reset_partitions_spec (r : Ring) (ds : List (Option Dev)) (hd : r.devs = some ds) :
    ∃ out, ring_reset_partitions r = .ok out ∧
      out.replica2part2dev = none ∧ out.last_part_moves = none ∧
      out.last_part_moves_epoch = none ∧ out.devs_changed = true ∧ out.version = 1 ∧
      ∃ ds2, out.devs = some ds2 ∧ ds2.length = ds.length ∧
        ∀ (i : Nat) (d : Dev), ds2[i]? = some (some d) → d.parts = 0 := by
  refine ⟨_, ring_reset_partitions_eq r ds hd, rfl, rfl, rfl, rfl, rfl, _, rfl, by simp, ?_⟩
  intro i d hi
  rw [List.getElem?_map] at hi
  cases h1 : ds[i]? with
  | none => rw [h1] at hi; simp at hi
  | some od =>
    rw [h1] at hi
    cases od with
    | none => simp at hi
    | some d0 =>
      simp at hi
      simp [← hi]

/-- C3 witness: the reset theorem instantiated on `rW`. -/
theorem reset_partitions_spec_w :
    ∃ out, ring_reset_partitions rW = .ok out ∧
      out.replica2part2dev = none ∧ out.last_part_moves = none ∧
      out.last_part_moves_epoch = none ∧ out.devs_changed = true ∧ out.version = 1 ∧
      ∃ ds2, out.devs = some ds2 ∧
        ds2.length = ([some ⟨0, 2⟩, none, some ⟨3, 2⟩] : List (Option Dev)).length ∧
        ∀ (i : Nat) (d : Dev), ds2[i]? = some (some d) → d.parts = 0 :=
  reset_partitions_spec rW [some ⟨0, 2⟩, none, some ⟨3, 2⟩] rfl

/-- C4 counterexample: on a ring whose assignment is unset,
`ring_shift_power` raises a plain `TypeError` (from iterating `None`),
which is not the distinguished `InvalidState` error the claim names. -/
theorem shift_power_unassigned_cx :
    ring_shift_power rC4 = .error (.typeError, rC4) ∧
      PyErr.typeError ≠ PyErr.invalidState := by
  exact ⟨rfl, by decide⟩

/-- C4 amended: whenever the assignment is unset, `ring_shift_power`
fails — but with a `TypeError` from iterating `None` (line 47), not with
`InvalidState`; the input is left unchanged. -/
theorem shift_power_unassigned_raises (r : Ring) (h : r.replica2part2dev = none) :
    ring_shift_power r = .error (.typeError, r) := by
  simp [ring_shift_power, h]

/-- C4 amended, witness on `rC4`. -/
theorem shift_power_unassigned_raises_w :
    ring_shift_power rC4 = .error (.typeError, rC4) :=
  shift_power_unassigned_raises rC4 rfl

/-- A ring with the assignment set but `_last_part_moves` unset: the shift
raises only after the assignment and the device counts are already doubled. -/
def rC5 : Ring := ⟨1, 2, some [[0, 1]], some [some ⟨0, 1⟩, some ⟨1, 1⟩], none, none, false, 2⟩

/-- A ring whose `devs` is `None`: reset raises before any mutation. -/
def rC5r : Ring := ⟨1, 2, some [[0, 1]], none, some [0, 0], none, false, 2⟩

/-- A ring with unset assignment, for the shift error-before-mutation case. -/
def rC5n : Ring := ⟨0, 1, none, none, none, none, false, 1⟩

/-- A fully set ring on which the shift succeeds. -/
def rC5ok : Ring := ⟨1, 2, some [[0]], some [some ⟨0, 1⟩], some [3], none, false, 2⟩

/-- C5 counterexample: on `rC5` (assignment set, `_last_part_moves`
unset) `ring_shift_power` raises after already doubling the assignment and
the device `parts` — the input ring observable at the raise differs from
the original, so the transform is not atomic. -/
theorem transforms_atomicity_cx :
    ring_shift_power rC5 =
      .error (.typeError,
        { rC5 with replica2part2dev := some [[0, 0, 1, 1]],
                   devs := some [some ⟨0, 2⟩, some ⟨1, 2⟩] }) ∧
    ({ rC5 with replica2part2dev := some [[0, 0, 1, 1]],
                devs := some [some ⟨0, 2⟩, some ⟨1, 2⟩] } : Ring) ≠ rC5 := by
  exact ⟨rfl, by decide⟩

/-- C5 amended: `ring_reset_partitions` is atomic (any error leaves the
input unchanged); `ring_shift_power` errors with the input unchanged when
the assignment is unset, and succeeds outright when the assignment,
`devs` and `_last_part_moves` are all set — but in between (assignment
set, `devs` or `_last_part_moves` unset) it raises with the input already
partially mutated, as the counterexample shows. -/
theorem transforms_atomicity_amended (r r2 : Ring) (e : PyErr) :
    (ring_reset_partitions r = .error (e, r2) → r2 = r) ∧
    (r.replica2part2dev = none → ring_shift_power r = .error (.typeError, r)) ∧
    (∀ (a : List (List Nat)) (ds : List (Option Dev)) (lpm : List Nat),
      r.replica2part2dev = some a → r.devs = some ds → r.last_part_moves = some lpm →
      ∃ out, ring_shift_power r = .ok out) := by
  refine ⟨?_, ?_, ?_⟩
  · intro h
    cases hd : r.devs with
    | none =>
      simp [ring_reset_partitions, hd] at h
      exact h.2.symm
    | some ds =>
      rw [ring_reset_partitions_eq r ds hd] at h
      cases h
  · intro h
    simp [ring_shift_power, h]
  · intro a ds lpm ha hd hl
    exact ⟨_, ring_shift_power_eq r a ds lpm ha hd hl⟩

/-- C5 amended, witness: reset error on `rC5r` leaves it unchanged; the
shift errors in place on `rC5n` and succeeds on `rC5ok`. -/
theorem transforms_atomicity_amended_w :
    rC5r = rC5r ∧ ring_shift_power rC5n = .error (.typeError, rC5n) ∧
      ∃ out, ring_shift_power rC5ok = .ok out :=
  ⟨(transforms_atomicity_amended rC5r rC5r .typeError).1 rfl,
   (transforms_atomicity_amended rC5n rC5n .typeError).2.1 rfl,
   (transforms_atomicity_amended rC5ok rC5ok .typeError).2.2
     [[0]] [some ⟨0, 1⟩] [3] rfl rfl rfl⟩

/-- C6: on success, every present device's `parts` in the shifted ring is
exactly double its old value (and the slot layout is unchanged). -/
theorem shift_power_doubles_dev_parts (r : Ring) (a : List (List Nat))
    (ds : List (Option Dev)) (lpm : List Nat) (ha : r.replica2part2dev = some a)
    (hd : r.devs = some ds) (hl : r.last_part_moves = some lpm) :
    ∃ out ds2, ring_shift_power r = .ok out ∧ out.devs = some ds2 ∧
      ds2.length = ds.length ∧
      ∀ (i : Nat) (d : Dev), ds[i]? = some (some d) →
        ∃ d2, ds2[i]? = some (some d2) ∧ d2.parts = 2 * d.parts ∧ d2.id = d.id := by
  refine ⟨_, _, ring_shift_power_eq r a ds lpm ha hd hl, rfl, by simp, ?_⟩
  intro i d hi
  refine ⟨{ d with parts := d.parts * 2 }, ?_, by simp [Nat.mul_comm], rfl⟩
  simp [List.getElem?_map, hi]

/-- C6 witness on `rW`. -/
theorem shift_power_doubles_dev_parts_w :
    ∃ out ds2, ring_shift_power rW = .ok out ∧ out.devs = some ds2 ∧
      ds2.length = ([some ⟨0, 2⟩, none, some ⟨3, 2⟩] : List (Option Dev)).length ∧
      ∀ (i : Nat) (d : Dev),
        ([some ⟨0, 2⟩, none, some ⟨3, 2⟩] : List (Option Dev))[i]? = some (some d) →
        ∃ d2, ds2[i]? = some (some d2) ∧ d2.parts = 2 * d.parts ∧ d2.id = d.id :=
  shift_power_doubles_dev_parts rW [[0, 3]] [some ⟨0, 2⟩, none, some ⟨3, 2⟩] [4, 6]
    rfl rfl rfl

/-- C10: an empty (`None`) device slot causes no error in either
transform: both skip it (`if device:` / `if dev:`) and the slot is still
empty, at the same index, in the result. -/
theorem transforms_keep_empty_slots (r : Ring) (a : List (List Nat))
    (ds : List (Option Dev)) (lpm : List Nat) (i : Nat)
    (ha : r.replica2part2dev = some a) (hd : r.devs = some ds)
    (hl : r.last_part_moves = some lpm) (hi : ds[i]? = some none) :
    (∃ out ds2, ring_shift_power r = .ok out ∧ out.devs = some ds2 ∧
      ds2.length = ds.length ∧ ds2[i]? = some none) ∧
    (∃ out2 ds3, ring_reset_partitions r = .ok out2 ∧ out2.devs = some ds3 ∧
      ds3.length = ds.length ∧ ds3[i]? = some none) := by
  constructor
  · exact ⟨_, _, ring_shift_power_eq r a ds lpm ha hd hl, rfl, by simp,
      by simp [List.getElem?_map, hi]⟩
  · exact ⟨_, _, ring_reset_partitions_eq r ds hd, rfl, by simp,
      by simp [List.getElem?_map, hi]⟩

/-- C10 witness on `rW`, whose slot 1 is empty. -/
theorem transforms_keep_empty_slots_w :
    (∃ out ds2, ring_shift_power rW = .ok out ∧ out.devs = some ds2 ∧
      ds2.length = ([some ⟨0, 2⟩, none, some ⟨3, 2⟩] : List (Option Dev)).length ∧
      ds2[1]? = some none) ∧
    (∃ out2 ds3, ring_reset_partitions rW = .ok out2 ∧ out2.devs = some ds3 ∧
      ds3.length = ([some ⟨0, 2⟩, none, some ⟨3, 2⟩] : List (Option Dev)).length ∧
      ds3[1]? = some none) :=
  transforms_keep_empty_slots rW [[0, 3]] [some ⟨0, 2⟩, none, some ⟨3, 2⟩] [4, 6] 1
    rfl rfl rfl rfl

/-!
## Relocation planner (`find_all_files`, lines 111-179)

Paths are modelled as lists of segments: `os.walk` yields path components
that never contain the separator `'/'`, so `'/'.join` and `split('/')`
are inverse to each other on these lists and `oldname.split('/')` is the
segment list itself.  The substring tests of the source
(`"quarantined" in root`, `"containers" in oldname`,
`"accounts" in oldname`) are on the joined string; since none of the
needles contains `'/'`, an occurrence always lies inside one segment, so
they become "some segment has the needle as a substring".  The extension
test `oldname.split('.')[-1]` is computed on the joined string, as in the
source.  The external collaborators (lines 30-32, 89-108, 115, 125, 142-147,
164-168: the `Ring.get_nodes` hash lookup, `get_acc_cont_obj`, and the
container/account brokers) are oracle functions bundled in `Collab`;
`get_acc_cont_obj` may raise (e.g. `pickle.loads` on absent or corrupt
metadata), which `find_all_files` does not catch.  Each `print` statement
becomes one `Line`.  The dead local `path = '/'.join(...)` of line 120 is
omitted: it is never read.
-/

/-- One printed line of the plan: lines 133-136, 155-158 and 176-179.
`comment s` is `print "#%s..."` (the text after `#`), `blank` the bare
`print`. -/
inductive Line where
  | comment (s : String)
  | mkdir (dir : String)
  | mv (src dst : String)
  | blank
  deriving DecidableEq, Repr

/-- The external collaborators used by the planner. -/
structure Collab where
  get_acc_cont_obj : List String → Except PyErr (String × String × String)
  containerInfo : List String → String × String
  accountInfo : List String → String
  getNodesObj : String → String → String → Nat
  getNodesCont : String → String → Nat
  getNodesAcc : String → Nat

/-- The `-o`, `-c`, `-a` selection flags consumed by `find_all_files`. -/
structure Options where
  objects : Bool
  containers : Bool
  accounts : Bool
  deriving DecidableEq, Repr

/-- `'/'.join(segs)`. -/
def joinSegs : List String → String
  | [] => ""
  | [s] => s
  | s :: rest => s ++ "/" ++ joinSegs rest

/-- The chunk after the last `'.'` of a string: `s.split('.')[-1]`. -/
def lastChunk (l : List Char) : List Char :=
  l.foldl (fun acc x => if x = '.' then [] else acc ++ [x]) []

/-- `oldname.split('.')[-1]` on the joined path (lines 122, 139, 161). -/
def pyExt (segs : List String) : String :=
  String.mk (lastChunk (joinSegs segs).toList)

/-- `leadMatch n h` holds when `n` is an initial run of `h`. -/
def leadMatch {α : Type} [DecidableEq α] : List α → List α → Bool
  | [], _ => true
  | _ :: _, [] => false
  | x :: xs, y :: ys => x = y && leadMatch xs ys

/-- `subList n h` holds when `n` occurs contiguously inside `h`. -/
def subList {α : Type} [DecidableEq α] (needle : List α) : List α → Bool
  | [] => leadMatch needle []
  | y :: ys => leadMatch needle (y :: ys) || subList needle ys

/-- Python `needle in hay` on strings (substring containment). -/
def strContains (hay needle : String) : Bool :=
  subList needle.toList hay.toList

/-- Substring containment against a segment path; sound for needles
without `'/'` (see the section comment). -/
def pathContains (segs : List String) (needle : String) : Bool :=
  segs.any fun s => strContains s needle

/-- Python `list.index` (first occurrence; `ValueError` when absent),
lines 128, 150, 171. -/
def pyIndex (l : List String) (x : String) : Except PyErr Nat :=
  match l with
  | [] => .error .valueError
  | y :: ys =>
    if y = x then .ok 0
    else
      match pyIndex ys x with
      | .ok i => .ok (i + 1)
      | .error e => .error e

/-- Python list item assignment `l[i] = v` (`IndexError` out of range),
lines 129, 151, 172. -/
def pySet (l : List String) (i : Nat) (v : String) : Except PyErr (List String) :=
  if i < l.length then .ok (l.set i v) else .error .indexError

/-- The objects branch, lines 121-136. -/
def objectBlock (c : Collab) (oldname : List String) : Except PyErr (List Line) :=
  match c.get_acc_cont_obj oldname with
  | .error e => .error e
  | .ok (acc, cont, obj) =>
    let new_part := c.getNodesObj acc cont obj
    match pyIndex oldname "objects" with
    | .error e => .error e
    | .ok part_pos =>
      match pySet oldname (part_pos + 1) (toString new_part) with
      | .error e => .error e
      | .ok parts =>
        .ok [Line.comment (acc ++ "/" ++ cont ++ "/" ++ obj),
             Line.mkdir (joinSegs parts.dropLast),
             Line.mv (joinSegs oldname) (joinSegs parts),
             Line.blank]

/-- The containers branch, lines 138-158. -/
def containerBlock (c : Collab) (oldname : List String) : Except PyErr (List Line) :=
  let info := c.containerInfo oldname
  let acc := info.1
  let cont := info.2
  let new_part := c.getNodesCont acc cont
  match pyIndex oldname "containers" with
  | .error e => .error e
  | .ok part_pos =>
    match pySet oldname (part_pos + 1) (toString new_part) with
    | .error e => .error e
    | .ok parts =>
      .ok [Line.comment (acc ++ "/" ++ cont),
           Line.mkdir (joinSegs parts.dropLast),
           Line.mv (joinSegs oldname) (joinSegs parts),
           Line.blank]

/-- The accounts branch, lines 160-179. -/
def accountBlock (c : Collab) (oldname : List String) : Except PyErr (List Line) :=
  let acc := c.accountInfo oldname
  let new_part := c.getNodesAcc acc
  match pyIndex oldname "accounts" with
  | .error e => .error e
  | .ok part_pos =>
    match pySet oldname (part_pos + 1) (toString new_part) with
    | .error e => .error e
    | .ok parts =>
      .ok [Line.comment acc,
           Line.mkdir (joinSegs parts.dropLast),
           Line.mv (joinSegs oldname) (joinSegs parts),
           Line.blank]

/-- The body of `for filename in files` (lines 118-179): the three
independent `if` branches in source order; an uncaught exception in any
branch propagates. -/
def processFile (c : Collab) (opts : Options) (oldname : List String) :
    Except PyErr (List Line) :=
  match (if opts.objects = true ∧ (pyExt oldname = "data" ∨ pyExt oldname = "ts")
         then objectBlock c oldname else .ok []) with
  | .error e => .error e
  | .ok l1 =>
    match (if opts.containers = true ∧ pyExt oldname = "db" ∧
              pathContains oldname "containers" = true
           then containerBlock c oldname else .ok []) with
    | .error e => .error e
    | .ok l2 =>
      match (if opts.accounts = true ∧ pyExt oldname = "db" ∧
                pathContains oldname "accounts" = true
             then accountBlock c oldname else .ok []) with
      | .error e => .error e
      | .ok l3 => .ok (l1 ++ l2 ++ l3)

/-- The inner loop over one directory's files (line 118). -/
def processFiles (c : Collab) (opts : Options) (root : List String) :
    List String → Except PyErr (List Line)
  | [] => .ok []
  | f :: fs =>
    match processFile c opts (root ++ [f]) with
    | .error e => .error e
    | .ok l =>
      match processFiles c opts root fs with
      | .error e => .error e
      | .ok ls => .ok (l ++ ls)

/-- `find_all_files` (lines 111-179) over an `os.walk` listing, given as
the walk-ordered list of `(root, files)` pairs; a root containing
`"quarantined"` is skipped entirely (line 117). -/
def find_all_files (c : Collab) (opts : Options) :
    List (List String × List String) → Except PyErr (List Line)
  | [] => .ok []
  | (root, files) :: rest =>
    match (if pathContains root "quarantined" then .ok []
           else processFiles c opts root files) with
    | .error e => .error e
    | .ok l =>
      match find_all_files c opts rest with
      | .error e => .error e
      | .ok ls => .ok (l ++ ls)

/-- Recogniser for move instructions in the emitted plan. -/
def isMvLine : Line → Bool
  | .mv _ _ => true
  | _ => false

/-- Number of move instructions whose source is `src`. -/
def mvCountFor (src : String) (lines : List Line) : Nat :=
  (lines.filter fun l =>
    match l with
    | .mv s _ => s == src
    | _ => false).length

deriving instance DecidableEq for Except

lemma lt_of_getElem?_some {α : Type} :
    ∀ (l : List α) (i : Nat) (v : α), l[i]? = some v → i < l.length := by
  intro l
  induction l with
  | nil => intro i v h; simp at h
  | cons y ys ih =>
    intro i v h
    cases i with
    | zero => simp
    | succ i =>
      simp only [List.getElem?_cons_succ] at h
      have := ih i v h
      simp
      omega

lemma set_of_getElem?_some {α : Type} :
    ∀ (l : List α) (i : Nat) (v : α), l[i]? = some v → l.set i v = l := by
  intro l
  induction l with
  | nil => intro i v h; simp at h
  | cons y ys ih =>
    intro i v h
    cases i with
    | zero => simp at h; simp [List.set, h]
    | succ i =>
      simp only [List.getElem?_cons_succ] at h
      simp [List.set, ih i v h]

/-- Oracle for the C2 scenario: the recovered identity hashes to
partition 7 — the very partition already encoded in the file's path. -/
def cxC2 : Collab :=
  ⟨fun _ => .ok ("a", "c", "o"), fun _ => ("a", "c"), fun _ => "a",
   fun _ _ _ => 7, fun _ _ => 0, fun _ => 0⟩

def optsC2 : Options := ⟨true, false, false⟩

def walkC2 : List (List String × List String) :=
  [(["srv", "node", "sda", "objects", "7", "abc", "hash"], ["x.data"])]

/-- C2 counterexample: the file sits in partition directory `7` (the
segment after `objects`), the hash collaborator also returns 7, yet the
planner emits the full four-print block — with a self-move — instead of
zero lines. -/
theorem planner_noop_cx :
    cxC2.getNodesObj "a" "c" "o" = 7 ∧
    (["srv", "node", "sda", "objects", "7", "abc", "hash", "x.data"] :
        List String)[4]? = some (toString 7) ∧
    find_all_files cxC2 optsC2 walkC2 =
      .ok [Line.comment "a/c/o", Line.mkdir "srv/node/sda/objects/7/abc/hash",
           Line.mv "srv/node/sda/objects/7/abc/hash/x.data"
             "srv/node/sda/objects/7/abc/hash/x.data",
           Line.blank] ∧
    find_all_files cxC2 optsC2 walkC2 ≠ .ok [] := by
  refine ⟨rfl, by decide, by decide, by decide⟩

/-- C2 amended: when the target partition equals the partition segment
already in the path, the planner does not emit zero lines; it emits the
usual block whose move instruction has destination equal to source (the
`mv` is a no-op self-move, since lines 127-135 never compare the two). -/
theorem planner_noop_still_emits (c : Collab) (opts : Options) (oldname : List String)
    (acc cont obj : String) (n k : Nat)
    (ho : opts.objects = true)
    (he : pyExt oldname = "data" ∨ pyExt oldname = "ts")
    (hm : c.get_acc_cont_obj oldname = .ok (acc, cont, obj))
    (hn : c.getNodesObj acc cont obj = n)
    (hk : pyIndex oldname "objects" = .ok k)
    (hcur : oldname[k + 1]? = some (toString n)) :
    processFile c opts oldname =
      .ok [Line.comment (acc ++ "/" ++ cont ++ "/" ++ obj),
           Line.mkdir (joinSegs oldname.dropLast),
           Line.mv (joinSegs oldname) (joinSegs oldname),
           Line.blank] := by
  have hlen : k + 1 < oldname.length := lt_of_getElem?_some oldname (k + 1) (toString n) hcur
  have hset : oldname.set (k + 1) (toString n) = oldname :=
    set_of_getElem?_some oldname (k + 1) (toString n) hcur
  have hblock : objectBlock c oldname =
      .ok [Line.comment (acc ++ "/" ++ cont ++ "/" ++ obj),
           Line.mkdir (joinSegs oldname.dropLast),
           Line.mv (joinSegs oldname) (joinSegs oldname),
           Line.blank] := by
    unfold objectBlock
    rw [hm, hk]
    dsimp only
    rw [hn]
    unfold pySet
    rw [if_pos hlen, hset]
  have hdb : pyExt oldname ≠ "db" := by
    cases he with
    | inl h => rw [h]; decide
    | inr h => rw [h]; decide
  have hc1 : opts.objects = true ∧ (pyExt oldname = "data" ∨ pyExt oldname = "ts") :=
    ⟨ho, he⟩
  unfold processFile
  rw [if_pos hc1, hblock]
  rw [if_neg (by intro h; exact hdb h.2.1), if_neg (by intro h; exact hdb h.2.1)]
  simp

/-- C2 amended, witness: the concrete no-op file from the counterexample,
run through `processFile` via the amended theorem. -/
theorem planner_noop_still_emits_w :
    processFile cxC2 optsC2
        ["srv", "node", "sda", "objects", "7", "abc", "hash", "x.data"] =
      .ok [Line.comment ("a" ++ "/" ++ "c" ++ "/" ++ "o"),
           Line.mkdir (joinSegs (["srv", "node", "sda", "objects", "7", "abc",
             "hash", "x.data"] : List String).dropLast),
           Line.mv (joinSegs ["srv", "node", "sda", "objects", "7", "abc", "hash",
             "x.data"])
             (joinSegs ["srv", "node", "sda", "objects", "7", "abc", "hash",
               "x.data"]),
           Line.blank] :=
  planner_noop_still_emits cxC2 optsC2
    ["srv", "node", "sda", "objects", "7", "abc", "hash", "x.data"]
    "a" "c" "o" 7 3 rfl (Or.inl (by decide)) rfl rfl (by decide) (by decide)

/-- Oracle for the C7 scenario: metadata recovery fails on one specific
file (corrupt pickled metadata) and succeeds elsewhere. -/
def cxC7 : Collab :=
  ⟨fun old =>
      if old = ["srv", "node", "sda", "objects", "7", "ab", "h1", "bad.data"]
      then .error .unpicklingError else .ok ("a", "c", "o"),
   fun _ => ("a", "c"), fun _ => "a", fun _ _ _ => 9, fun _ _ => 0, fun _ => 0⟩

def optsC7 : Options := ⟨true, false, false⟩

def walkC7 : List (List String × List String) :=
  [(["srv", "node", "sda", "objects", "7", "ab", "h1"], ["bad.data"]),
   (["srv", "node", "sda", "objects", "7", "cd", "h2"], ["good.data"])]

/-- C7 counterexample: the walk meets a file whose metadata cannot be
recovered; the whole run returns that error — no skipping, no lines for
the later, healthy file, which on its own would have produced a full
block. -/
theorem planner_metadata_fatal_cx :
    find_all_files cxC7 optsC7 walkC7 = .error .unpicklingError ∧
    find_all_files cxC7 optsC7
        [(["srv", "node", "sda", "objects", "7", "cd", "h2"], ["good.data"])] =
      .ok [Line.comment "a/c/o", Line.mkdir "srv/node/sda/objects/9/cd/h2",
           Line.mv "srv/node/sda/objects/7/cd/h2/good.data"
             "srv/node/sda/objects/9/cd/h2/good.data",
           Line.blank] := by
  exact ⟨by decide, by decide⟩

/-- C7 amended: a metadata-recovery failure on an object file is fatal to
the whole walk — `find_all_files` catches nothing (lines 116-136), so the
first such exception propagates and no further file is processed. -/
theorem planner_metadata_error_aborts (c : Collab) (opts : Options)
    (root : List String) (f : String) (fs : List String)
    (rest : List (List String × List String)) (e : PyErr)
    (hq : pathContains root "quarantined" = false)
    (ho : opts.objects = true)
    (he : pyExt (root ++ [f]) = "data" ∨ pyExt (root ++ [f]) = "ts")
    (hm : c.get_acc_cont_obj (root ++ [f]) = .error e) :
    find_all_files c opts ((root, f :: fs) :: rest) = .error e := by
  have hblock : objectBlock c (root ++ [f]) = .error e := by
    unfold objectBlock
    rw [hm]
  have hpf : processFile c opts (root ++ [f]) = .error e := by
    unfold processFile
    rw [if_pos ⟨ho, he⟩, hblock]
  have hpfs : processFiles c opts root (f :: fs) = .error e := by
    unfold processFiles
    rw [hpf]
  unfold find_all_files
  rw [if_neg (show ¬pathContains root "quarantined" = true by simp [hq])]
  rw [hpfs]

/-- C7 amended, witness: the concrete bad file from the counterexample. -/
theorem planner_metadata_error_aborts_w :
    find_all_files cxC7 optsC7
        [(["srv", "node", "sda", "objects", "7", "ab", "h1"],
          ["bad.data", "other.data"]),
         (["srv", "node", "sda", "objects", "7", "cd", "h2"], ["good.data"])] =
      .error .unpicklingError :=
  planner_metadata_error_aborts cxC7 optsC7
    ["srv", "node", "sda", "objects", "7", "ab", "h1"] "bad.data" ["other.data"]
    [(["srv", "node", "sda", "objects", "7", "cd", "h2"], ["good.data"])]
    .unpicklingError (by decide) rfl (Or.inl (by decide)) (by decide)

lemma pathContains_of_mem (root : List String) (h : "quarantined" ∈ root) :
    pathContains root "quarantined" = true := by
  have hself : strContains "quarantined" "quarantined" = true := by decide
  exact List.any_eq_true.mpr ⟨"quarantined", h, hself⟩

/-- C8: planner output is unchanged when every directory having a path
segment named `quarantined` is removed from the walk — such directories
contribute nothing: line 117 skips any root containing the substring
`quarantined`, which includes every root with an exact `quarantined`
segment, before any file of that directory is examined. -/
theorem planner_skips_quarantined (c : Collab) (opts : Options)
    (walk : List (List String × List String)) :
    find_all_files c opts walk =
      find_all_files c opts
        (walk.filter fun d => !(d.1.contains "quarantined")) := by
  induction walk with
  | nil => rfl
  | cons hd rest ih =>
    obtain ⟨root, files⟩ := hd
    by_cases hq : "quarantined" ∈ root
    · have h1 : pathContains root "quarantined" = true := pathContains_of_mem root hq
      have h2 : root.contains "quarantined" = true := by
        simpa using hq
      rw [List.filter_cons]
      rw [h2]
      simp only [Bool.not_true, Bool.false_eq_true, if_false]
      rw [← ih]
      show (match (if pathContains root "quarantined" then Except.ok []
                   else processFiles c opts root files : Except PyErr (List Line)) with
            | Except.error e => Except.error e
            | Except.ok l =>
              match find_all_files c opts rest with
              | Except.error e => Except.error e
              | Except.ok ls => Except.ok (l ++ ls)) = find_all_files c opts rest
      rw [if_pos h1]
      cases hfr : find_all_files c opts rest with
      | error e => rfl
      | ok ls => simp
    · have h2 : root.contains "quarantined" = false := by
        simp only [Bool.eq_false_iff]
        intro hc
        exact hq (by simpa using hc)
      rw [List.filter_cons, h2]
      simp only [Bool.not_false, if_pos]
      show (match (if pathContains root "quarantined" then Except.ok []
                   else processFiles c opts root files : Except PyErr (List Line)) with
            | Except.error e => Except.error e
            | Except.ok l =>
              match find_all_files c opts rest with
              | Except.error e => Except.error e
              | Except.ok ls => Except.ok (l ++ ls)) =
           (match (if pathContains root "quarantined" then Except.ok []
                   else processFiles c opts root files : Except PyErr (List Line)) with
            | Except.error e => Except.error e
            | Except.ok l =>
              match find_all_files c opts
                  (rest.filter fun d => !(d.1.contains "quarantined")) with
              | Except.error e => Except.error e
              | Except.ok ls => Except.ok (l ++ ls))
      rw [← ih]

lemma objectBlock_mv_count (c : Collab) (oldname : List String) :
    ∀ ls, objectBlock c oldname = .ok ls → (ls.filter isMvLine).length = 1 := by
  intro ls h
  unfold objectBlock at h
  split at h
  · exact absurd h (by simp)
  · split at h
    · exact absurd h (by simp)
    · dsimp only at h
      split at h
      · exact absurd h (by simp)
      · injection h with h2
        rw [← h2]
        simp [isMvLine]

lemma containerBlock_mv_count (c : Collab) (oldname : List String) :
    ∀ ls, containerBlock c oldname = .ok ls → (ls.filter isMvLine).length = 1 := by
  intro ls h
  unfold containerBlock at h
  split at h
  · exact absurd h (by simp)
  · dsimp only at h
    split at h
    · exact absurd h (by simp)
    · injection h with h2
      rw [← h2]
      simp [isMvLine]

lemma accountBlock_mv_count (c : Collab) (oldname : List String) :
    ∀ ls, accountBlock c oldname = .ok ls → (ls.filter isMvLine).length = 1 := by
  intro ls h
  unfold accountBlock at h
  split at h
  · exact absurd h (by simp)
  · dsimp only at h
    split at h
    · exact absurd h (by simp)
    · injection h with h2
      rw [← h2]
      simp [isMvLine]

lemma guard_block_count (P : Prop) [Decidable P] (X : Except PyErr (List Line))
    (l : List Line)
    (hX : ∀ ls, X = .ok ls → (ls.filter isMvLine).length = 1)
    (h : (if P then X else .ok []) = .ok l) :
    (l.filter isMvLine).length ≤ 1 ∧ (¬P → l = []) := by
  by_cases hp : P
  · rw [if_pos hp] at h
    exact ⟨le_of_eq (hX l h), fun hnp => absurd hp hnp⟩
  · rw [if_neg hp] at h
    injection h with h2
    exact ⟨by simp [← h2], fun _ => h2.symm⟩

/-- Oracle for the C9 scenario: a container database under a path that
also has an `accounts` segment. -/
def cxC9 : Collab :=
  ⟨fun _ => .ok ("a", "c", "o"), fun _ => ("a", "c"), fun _ => "a",
   fun _ _ _ => 0, fun _ _ => 9, fun _ => 3⟩

def optsC9 : Options := ⟨false, true, true⟩

def walkC9 : List (List String × List String) :=
  [(["srv", "accounts", "foo", "containers", "5"], ["x.db"])]

/-- C9 counterexample: a `.db` file whose path contains both `containers`
and `accounts` matches both branches (lines 138-140 and 160-162 test
substrings of the whole path), so with both kinds selected the same file
is the subject of two `mv` instructions in one pass. -/
theorem planner_double_move_cx :
    find_all_files cxC9 optsC9 walkC9 =
      .ok [Line.comment "a/c", Line.mkdir "srv/accounts/foo/containers/9",
           Line.mv "srv/accounts/foo/containers/5/x.db"
             "srv/accounts/foo/containers/9/x.db",
           Line.blank, Line.comment "a", Line.mkdir "srv/accounts/3/containers/5",
           Line.mv "srv/accounts/foo/containers/5/x.db"
             "srv/accounts/3/containers/5/x.db",
           Line.blank] ∧
    mvCountFor "srv/accounts/foo/containers/5/x.db"
      [Line.comment "a/c", Line.mkdir "srv/accounts/foo/containers/9",
       Line.mv "srv/accounts/foo/containers/5/x.db"
         "srv/accounts/foo/containers/9/x.db",
       Line.blank, Line.comment "a", Line.mkdir "srv/accounts/3/containers/5",
       Line.mv "srv/accounts/foo/containers/5/x.db"
         "srv/accounts/3/containers/5/x.db",
       Line.blank] = 2 := by
  exact ⟨by decide, by decide⟩

/-- C9 amended: per file the planner emits at most one move per branch,
and the objects branch excludes the database branches by extension; so
whenever the containers and accounts kinds are not both selected, a file's
block carries at most one move instruction.  (With both selected, a `.db`
file whose path contains both `containers` and `accounts` substrings gets
one move from each branch — the counterexample.) -/
theorem planner_single_move_per_file (c : Collab) (opts : Options)
    (oldname : List String) (lines : List Line)
    (hsel : opts.containers = false ∨ opts.accounts = false)
    (hok : processFile c opts oldname = .ok lines) :
    (lines.filter isMvLine).length ≤ 1 := by
  unfold processFile at hok
  split at hok
  · exact absurd hok (by simp)
  · rename_i l1 heq1
    split at hok
    · exact absurd hok (by simp)
    · rename_i l2 heq2
      split at hok
      · exact absurd hok (by simp)
      · rename_i l3 heq3
        injection hok with hok2
        subst hok2
        rw [List.filter_append, List.filter_append, List.length_append,
          List.length_append]
        have g1 := guard_block_count _ _ l1 (objectBlock_mv_count c oldname) heq1
        have g2 := guard_block_count _ _ l2 (containerBlock_mv_count c oldname) heq2
        have g3 := guard_block_count _ _ l3 (accountBlock_mv_count c oldname) heq3
        by_cases hO : opts.objects = true ∧ (pyExt oldname = "data" ∨ pyExt oldname = "ts")
        · have hdb : pyExt oldname ≠ "db" := by
            rcases hO.2 with h | h <;> rw [h] <;> decide
          have e2 : l2 = [] := g2.2 (by intro hc; exact hdb hc.2.1)
          have e3 : l3 = [] := g3.2 (by intro hc; exact hdb hc.2.1)
          subst e2
          subst e3
          simp only [List.filter_nil, List.length_nil]
          have := g1.1
          omega
        · have e1 : l1 = [] := g1.2 hO
          subst e1
          cases hsel with
          | inl hc =>
            have e2 : l2 = [] := g2.2 (by intro hcc; rw [hc] at hcc; exact absurd hcc.1 (by simp))
            subst e2
            simp only [List.filter_nil, List.length_nil]
            have := g3.1
            omega
          | inr ha =>
            have e3 : l3 = [] := g3.2 (by intro hcc; rw [ha] at hcc; exact absurd hcc.1 (by simp))
            subst e3
            simp only [List.filter_nil, List.length_nil]
            have := g2.1
            omega

/-- C9 amended, witness: a container database with only the containers
kind selected yields a block with exactly one move. -/
theorem planner_single_move_per_file_w :
    ((([Line.comment "a/c", Line.mkdir "srv/node/containers/9",
        Line.mv "srv/node/containers/5/x.db" "srv/node/containers/9/x.db",
        Line.blank] : List Line).filter isMvLine).length) ≤ 1 :=
  planner_single_move_per_file cxC9 ⟨false, true, false⟩
    ["srv", "node", "containers", "5", "x.db"]
    [Line.comment "a/c", Line.mkdir "srv/node/containers/9",
     Line.mv "srv/node/containers/5/x.db" "srv/node/containers/9/x.db",
     Line.blank]
    (Or.inr rfl) (by decide)

end SwiftRingTool
